import Mathlib

/-!
Shallow embedding of the `PoolAllocator<T>` class of
`src/include/poolAllocator.hpp` (a typed slot pool allocator with an
intrusive free-list, block expansion, and a separate registry for
multi-element allocations), together with theorems settling the
specification claims about it.

Modelling conventions:
* Pointers are natural-number addresses; the address `0` plays the
  role of `nullptr`.
* The system heap (`std::malloc`) is modelled as a bump counter
  `next_addr` carried alongside the pool fields: a successful `malloc`
  of `b` bytes returns the current counter and advances it by `b`, so
  distinct live allocations never overlap.  `next_addr` starts at `1`,
  so no real allocation has address `0`.  Whether a given `malloc` call
  succeeds is an explicit `sysOk : Bool` parameter of the operations
  that may allocate; `std::free` is modelled by dropping the address
  from the pool's bookkeeping.
* `size_t` counters are modelled as `Nat`.  The C++ decrement
  `--used_slots` in `deallocate` is `Nat` subtraction here; the two
  coincide whenever `used_slots > 0`, which holds at every `deallocate`
  performed under the allocator contract (each single-slot deallocate
  matches an outstanding allocate; see the trace semantics below).
* A thrown `std::bad_alloc` is an `Except.error` carrying the pool
  state at the throw point, so "the pool is unchanged on failure" is
  expressible as an equation on the error payload.
-/

namespace PoolModel

/-- The data members of `PoolAllocator<T>` (free_list, blocks,
large_allocs, total_slots, used_slots), plus the bump-counter model of
the system heap (`next_addr`, not a field of the C++ object).  A block
is recorded by its base address; the free list is the list of slot
addresses, head first. -/
structure PoolState where
  free_list : List Nat
  blocks : List Nat
  large_allocs : List Nat
  total_slots : Nat
  used_slots : Nat
  next_addr : Nat
  deriving Repr, DecidableEq

/-- `static constexpr size_type default_block_size = 16;` -/
def default_block_size : Nat := 16

/-- The state of a default-constructed pool (all member initializers),
with the heap counter at its starting value `1`. -/
def initialState : PoolState :=
  { free_list := [], blocks := [], large_allocs := []
    total_slots := 0, used_slots := 0, next_addr := 1 }

/-- `PoolAllocator::expand(count)`: malloc a block of
`max(count, default_block_size)` slots (throwing `bad_alloc` when the
system allocator fails, with nothing registered), push the block, push
every slot `base + i * sizeof(T)` onto the free-list head in index
order, and add the block's slot count to `total_slots`.  `sz` is
`sizeof(T)`. -/
def expand (sz count : Nat) (sysOk : Bool) (st : PoolState) :
    Except PoolState PoolState :=
  let block_slots := max count default_block_size
  let bytes := block_slots * sz
  if sysOk then
    let raw := st.next_addr
    let fl := (List.range block_slots).foldl
      (fun fl i => (raw + i * sz) :: fl) st.free_list
    Except.ok { st with
      blocks := st.blocks ++ [raw]
      free_list := fl
      total_slots := st.total_slots + block_slots
      next_addr := st.next_addr + bytes }
  else Except.error st

/-- `PoolAllocator::ensure_free_slot()`: if the free list is non-empty
return `true`; otherwise expand by `default_block_size` and report
whether the free list is now non-empty. -/
def ensure_free_slot (sz : Nat) (sysOk : Bool) (st : PoolState) :
    Except PoolState (PoolState × Bool) :=
  if st.free_list.isEmpty then
    match expand sz default_block_size sysOk st with
    | Except.error e => Except.error e
    | Except.ok st1 => Except.ok (st1, !st1.free_list.isEmpty)
  else Except.ok (st, true)

/-- `PoolAllocator::pop_from_block()`: pop the free-list head (the
caller has established that it exists; the empty case is unreachable
from `allocate`). -/
def pop_from_block (st : PoolState) : PoolState × Nat :=
  match st.free_list with
  | [] => (st, 0)
  | s :: rest => ({ st with free_list := rest }, s)

/-- `PoolAllocator::allocate(n)`: `n == 0` returns `nullptr`;
`n == 1` pops the free list if non-empty, otherwise grows a block and
pops, incrementing `used_slots`; `n > 1` mallocs `n * sizeof(T)` bytes
(throwing `bad_alloc` on failure, registering nothing) and appends the
address to `large_allocs`. -/
def allocate (sz n : Nat) (sysOk : Bool) (st : PoolState) :
    Except PoolState (PoolState × Nat) :=
  if n = 0 then Except.ok (st, 0)
  else if n = 1 then
    match st.free_list with
    | s :: rest =>
      Except.ok ({ st with free_list := rest
                           used_slots := st.used_slots + 1 }, s)
    | [] =>
      match ensure_free_slot sz sysOk st with
      | Except.error e => Except.error e
      | Except.ok (st1, ok) =>
        match (if ok then Except.ok st1
               else expand sz (max 1 default_block_size) sysOk st1) with
        | Except.error e => Except.error e
        | Except.ok st2 =>
          let r := pop_from_block st2
          Except.ok ({ r.1 with used_slots := r.1.used_slots + 1 }, r.2)
  else
    let bytes := n * sz
    if sysOk then
      Except.ok ({ st with
        large_allocs := st.large_allocs ++ [st.next_addr]
        next_addr := st.next_addr + bytes }, st.next_addr)
    else Except.error st

/-- `PoolAllocator::deallocate(p, n)`: null is a no-op; `n == 1`
pushes the slot onto the free-list head and decrements `used_slots`;
otherwise the large-allocation registry is searched for `p`
(`std::find`), the first occurrence freed and erased when found, and
nothing happens when not found. -/
def deallocate (p : Nat) (n : Nat) (st : PoolState) : PoolState :=
  if p = 0 then st
  else if n = 1 then
    { st with free_list := p :: st.free_list
              used_slots := st.used_slots - 1 }
  else
    if p ∈ st.large_allocs then
      { st with large_allocs := st.large_allocs.erase p }
    else st

/-- `PoolAllocator::reserve(new_cap)`: no-op when
`new_cap <= total_slots`, otherwise expand by the difference. -/
def reserve (sz new_cap : Nat) (sysOk : Bool) (st : PoolState) :
    Except PoolState PoolState :=
  if new_cap ≤ st.total_slots then Except.ok st
  else expand sz (new_cap - st.total_slots) sysOk st

/-- `PoolAllocator::release_all()`: free every block and every large
allocation, clear both registries and the free list, zero the
counters. -/
def release_all (st : PoolState) : PoolState :=
  { st with blocks := [], large_allocs := [], free_list := []
            total_slots := 0, used_slots := 0 }

/-- `PoolAllocator::PoolAllocator(initial_capacity)`: reserve when the
hint is positive. -/
def mkPool (sz initial_capacity : Nat) (sysOk : Bool) :
    Except PoolState PoolState :=
  if initial_capacity > 0 then reserve sz initial_capacity sysOk initialState
  else Except.ok initialState

/-- The copy constructor: its body is empty, so every member keeps its
default initializer and the new pool is empty (the heap counter is the
shared system heap, carried over from the source). -/
def copyCtor (other : PoolState) : PoolState :=
  { initialState with next_addr := other.next_addr }

/-- The move constructor: `blocks` is vector-moved (source left
empty), `free_list`, `total_slots` and `used_slots` are copied and then
zeroed in the source.  `large_allocs` is not mentioned by the
constructor body: the destination keeps its default (empty) registry
and the source keeps its own.  Returns (destination, moved-from
source). -/
def moveCtor (other : PoolState) : PoolState × PoolState :=
  (({ blocks := other.blocks
      free_list := other.free_list
      total_slots := other.total_slots
      used_slots := other.used_slots
      large_allocs := []
      next_addr := other.next_addr } : PoolState),
   { other with blocks := [], free_list := []
                total_slots := 0, used_slots := 0 })

/-- Iterate `allocate(1)` `k` times, collecting the returned
pointers. -/
def allocN (sz : Nat) (sysOk : Bool) : Nat → PoolState →
    Except PoolState (PoolState × List Nat)
  | 0, st => Except.ok (st, [])
  | k + 1, st =>
    match allocate sz 1 sysOk st with
    | Except.error e => Except.error e
    | Except.ok (st1, p) =>
      match allocN sz sysOk k st1 with
      | Except.error e => Except.error e
      | Except.ok (st2, ps) => Except.ok (st2, p :: ps)

/-! ### Basic lemmas about the operations -/

/-- Pushing the images of a list onto the head of `init` one by one
reverses them in front of `init`. -/
theorem foldl_cons_eq (f : Nat → Nat) :
    ∀ (l : List Nat) (init : List Nat),
      l.foldl (fun fl i => f i :: fl) init = (l.map f).reverse ++ init := by
  intro l
  induction l with
  | nil => intro init; rfl
  | cons a l ih =>
    intro init
    simp [List.foldl_cons, ih (f a :: init)]

/-- Closed form of a successful `expand`: one block of
`max count default_block_size` slots is registered and its slots are
prepended to the free list (highest index first, since each push goes
to the head). -/
theorem expand_ok (sz count : Nat) (st : PoolState) :
    expand sz count true st = Except.ok { st with
      blocks := st.blocks ++ [st.next_addr]
      free_list := ((List.range (max count default_block_size)).map
        (fun i => st.next_addr + i * sz)).reverse ++ st.free_list
      total_slots := st.total_slots + max count default_block_size
      next_addr := st.next_addr + max count default_block_size * sz } := by
  simp [expand, foldl_cons_eq]

/-- A failed `expand` throws before registering anything: the error
carries the unchanged pool state. -/
theorem expand_fail (sz count : Nat) (st : PoolState) :
    expand sz count false st = Except.error st := rfl

theorem range_map_reverse_succ (f : Nat → Nat) (m : Nat) :
    ((List.range (m + 1)).map f).reverse
      = f m :: ((List.range m).map f).reverse := by
  simp [List.range_succ]

/-- `allocate(1)` with a non-empty free list pops its head. -/
theorem allocate_one_cons (sz : Nat) (sysOk : Bool) (st : PoolState)
    (s : Nat) (rest : List Nat) (hfl : st.free_list = s :: rest) :
    allocate sz 1 sysOk st = Except.ok
      ({ st with free_list := rest, used_slots := st.used_slots + 1 }, s) := by
  simp [allocate, hfl]

/-- `allocate(1)` with an empty free list grows one
`default_block_size`-slot block and pops the highest-index slot of the
new block. -/
theorem allocate_one_empty (sz : Nat) (st : PoolState)
    (hfl : st.free_list = []) :
    allocate sz 1 true st = Except.ok
      ({ st with
          blocks := st.blocks ++ [st.next_addr]
          free_list := ((List.range 15).map
            (fun i => st.next_addr + i * sz)).reverse
          total_slots := st.total_slots + default_block_size
          used_slots := st.used_slots + 1
          next_addr := st.next_addr + default_block_size * sz },
        st.next_addr + 15 * sz) := by
  have h16 : max default_block_size default_block_size = 15 + 1 := rfl
  simp only [allocate, hfl, ensure_free_slot, List.isEmpty_nil, if_true,
    expand_ok, h16, range_map_reverse_succ, hfl]
  simp [pop_from_block, default_block_size]

/-- When the free list already holds at least `k` slots, `k` calls to
`allocate(1)` pop exactly the first `k` free-list entries and touch no
other field: in particular no new block is allocated. -/
theorem allocN_of_le (sz k : Nat) (st : PoolState)
    (h : k ≤ st.free_list.length) :
    allocN sz true k st = Except.ok
      ({ st with free_list := st.free_list.drop k
                 used_slots := st.used_slots + k }, st.free_list.take k) := by
  induction k generalizing st with
  | zero => simp [allocN]
  | succ k ih =>
    cases hfl : st.free_list with
    | nil => rw [hfl] at h; simp at h
    | cons s rest =>
      have hrest : k ≤ rest.length := by
        rw [hfl] at h; simpa [Nat.succ_le_succ_iff] using h
      have hstep := allocate_one_cons sz true st s rest hfl
      simp only [allocN, hstep,
        ih { st with free_list := rest, used_slots := st.used_slots + 1 } hrest,
        hfl]
      simp [Nat.add_assoc, Nat.add_comm 1 k]

/-! ### Trace semantics of well-formed public use

A caller interacts with the pool through `allocate`, `deallocate`,
`reserve` and `release_all`.  `stepWF` runs one such call and tracks
the multiset of outstanding single-slot pointers (`out`); it rejects
(returns `none` for) a `deallocate(p, 1)` whose pointer is not
currently outstanding — exactly the allocator-contract obligation that
every single-slot deallocate matches a prior allocate.  `release_all`
invalidates all outstanding pointers. -/

inductive PoolOp where
  | alloc (n : Nat)
  | dealloc (p : Nat) (n : Nat)
  | reserveCap (k : Nat)
  | releaseAllOp
  deriving Repr, DecidableEq

def stepWF (sz : Nat) (op : PoolOp) (s : PoolState × List Nat) :
    Option (PoolState × List Nat) :=
  match op with
  | PoolOp.alloc n =>
    match allocate sz n true s.1 with
    | Except.error _ => none
    | Except.ok (st1, p) => some (st1, if n = 1 then p :: s.2 else s.2)
  | PoolOp.dealloc p n =>
    if n = 1 then
      if p ∈ s.2 then some (deallocate p 1 s.1, s.2.erase p) else none
    else some (deallocate p n s.1, s.2)
  | PoolOp.reserveCap k =>
    match reserve sz k true s.1 with
    | Except.error _ => none
    | Except.ok st1 => some (st1, s.2)
  | PoolOp.releaseAllOp => some (release_all s.1, [])

def runFrom (sz : Nat) (s : PoolState × List Nat) :
    List PoolOp → Option (PoolState × List Nat)
  | [] => some s
  | op :: ops =>
    match stepWF sz op s with
    | none => none
    | some s1 => runFrom sz s1 ops

/-- Run a sequence of public calls from a freshly constructed pool. -/
def runWF (sz : Nat) (ops : List PoolOp) : Option (PoolState × List Nat) :=
  runFrom sz (initialState, []) ops

/-- The bookkeeping invariant of a pool in well-formed use: the free
list holds exactly the slots that are backed but not handed out, the
outstanding pointers number `used_slots`, and no handed-out or free
slot is the null address. -/
def Inv (st : PoolState) (out : List Nat) : Prop :=
  st.free_list.length + st.used_slots = st.total_slots ∧
  out.length = st.used_slots ∧
  (∀ p ∈ out, 0 < p) ∧ (∀ p ∈ st.free_list, 0 < p) ∧ 0 < st.next_addr

theorem stepWF_inv (sz : Nat) (op : PoolOp) (s s1 : PoolState × List Nat)
    (hinv : Inv s.1 s.2) (h : stepWF sz op s = some s1) : Inv s1.1 s1.2 := by
  obtain ⟨hlen, hout, hpos, hfpos, hna⟩ := hinv
  cases op with
  | alloc n =>
    rcases Nat.lt_or_ge n 2 with hn | hn
    · interval_cases n
      · simp only [stepWF, allocate, if_pos rfl] at h
        obtain rfl : s1 = (s.1, s.2) := by
          simpa using h.symm
        exact ⟨hlen, hout, hpos, hfpos, hna⟩
      · cases hfl : s.1.free_list with
        | cons a rest =>
          rw [stepWF, allocate_one_cons sz true s.1 a rest hfl] at h
          obtain rfl : s1 = ({ s.1 with
              free_list := rest
              used_slots := s.1.used_slots + 1 }, a :: s.2) := by
            simpa using h.symm
          refine ⟨?_, ?_, ?_, ?_, hna⟩
          · rw [hfl] at hlen; simp at hlen ⊢; omega
          · simp [hout]
          · intro p hp
            rcases List.mem_cons.mp hp with rfl | hp
            · exact hfpos p (hfl ▸ List.mem_cons_self _ _)
            · exact hpos p hp
          · intro p hp; exact hfpos p (hfl ▸ List.mem_cons_of_mem _ hp)
        | nil =>
          rw [stepWF, allocate_one_empty sz s.1 hfl] at h
          obtain rfl : s1 = ({ s.1 with
              blocks := s.1.blocks ++ [s.1.next_addr]
              free_list := ((List.range 15).map
                (fun i => s.1.next_addr + i * sz)).reverse
              total_slots := s.1.total_slots + default_block_size
              used_slots := s.1.used_slots + 1
              next_addr := s.1.next_addr + default_block_size * sz },
              (s.1.next_addr + 15 * sz) :: s.2) := by
            simpa using h.symm
          refine ⟨?_, ?_, ?_, ?_, ?_⟩
          · rw [hfl] at hlen
            simp only [List.length_nil] at hlen
            simp [default_block_size]; omega
          · simp [hout]
          · intro p hp
            rcases List.mem_cons.mp hp with rfl | hp
            · omega
            · exact hpos p hp
          · intro p hp
            simp only [List.mem_reverse, List.mem_map, List.mem_range] at hp
            obtain ⟨i, _, rfl⟩ := hp
            omega
          · simp; omega
    · have hn1 : ¬ n = 1 := by omega
      have hn0 : ¬ n = 0 := by omega
      rw [stepWF] at h
      rw [allocate, if_neg hn0, if_neg hn1] at h
      simp only [if_pos rfl] at h
      obtain rfl : s1 = ({ s.1 with
          large_allocs := s.1.large_allocs ++ [s.1.next_addr]
          next_addr := s.1.next_addr + n * sz }, s.2) := by
        simpa [hn1] using h.symm
      exact ⟨hlen, hout, hpos, hfpos, by simp; omega⟩
  | dealloc p n =>
    by_cases hn : n = 1
    · subst hn
      rw [stepWF] at h
      by_cases hp : p ∈ s.2
      · simp only [if_pos rfl, if_pos hp] at h
        have hppos : 0 < p := hpos p hp
        have hused : 1 ≤ s.1.used_slots := by
          have : 0 < s.2.length := List.length_pos.mpr
            (List.ne_nil_of_mem hp)
          omega
        obtain rfl : s1 = (deallocate p 1 s.1, s.2.erase p) := by
          simpa using h.symm
        rw [deallocate, if_neg (by omega), if_pos rfl]
        refine ⟨?_, ?_, ?_, ?_, hna⟩
        · simp; omega
        · simp [List.length_erase_of_mem hp]; omega
        · intro q hq; exact hpos q (List.mem_of_mem_erase hq)
        · intro q hq
          rcases List.mem_cons.mp hq with rfl | hq
          · exact hppos
          · exact hfpos q hq
      · simp [if_pos rfl, hp] at h
    · rw [stepWF] at h
      simp only [if_neg hn] at h
      obtain rfl : s1 = (deallocate p n s.1, s.2) := by simpa using h.symm
      rw [deallocate]
      by_cases hp0 : p = 0
      · rw [if_pos hp0]; exact ⟨hlen, hout, hpos, hfpos, hna⟩
      · rw [if_neg hp0, if_neg hn]
        by_cases hmem : p ∈ s.1.large_allocs
        · rw [if_pos hmem]; exact ⟨hlen, hout, hpos, hfpos, hna⟩
        · rw [if_neg hmem]; exact ⟨hlen, hout, hpos, hfpos, hna⟩
  | reserveCap k =>
    rw [stepWF] at h
    rw [reserve] at h
    by_cases hk : k ≤ s.1.total_slots
    · rw [if_pos hk] at h
      obtain rfl : s1 = (s.1, s.2) := by simpa using h.symm
      exact ⟨hlen, hout, hpos, hfpos, hna⟩
    · rw [if_neg hk, expand_ok] at h
      obtain rfl : s1 = ({ s.1 with
          blocks := s.1.blocks ++ [s.1.next_addr]
          free_list := ((List.range (max (k - s.1.total_slots)
              default_block_size)).map
            (fun i => s.1.next_addr + i * sz)).reverse ++ s.1.free_list
          total_slots := s.1.total_slots + max (k - s.1.total_slots)
              default_block_size
          next_addr := s.1.next_addr + max (k - s.1.total_slots)
              default_block_size * sz }, s.2) := by
        simpa using h.symm
      refine ⟨?_, hout, hpos, ?_, by simp; omega⟩
      · simp; omega
      · intro q hq
        simp only [List.mem_append, List.mem_reverse, List.mem_map,
          List.mem_range] at hq
        rcases hq with ⟨i, _, rfl⟩ | hq
        · omega
        · exact hfpos q hq
  | releaseAllOp =>
    rw [stepWF] at h
    obtain rfl : s1 = (release_all s.1, []) := by simpa using h.symm
    exact ⟨rfl, rfl, by simp, by simp [release_all], hna⟩

theorem runFrom_inv (sz : Nat) (ops : List PoolOp)
    (s s1 : PoolState × List Nat) (hinv : Inv s.1 s.2)
    (h : runFrom sz s ops = some s1) : Inv s1.1 s1.2 := by
  induction ops generalizing s with
  | nil => rw [runFrom] at h; cases h; exact hinv
  | cons op ops ih =>
    rw [runFrom] at h
    cases hstep : stepWF sz op s with
    | none => rw [hstep] at h; cases h
    | some s2 =>
      rw [hstep] at h
      exact ih s2 (stepWF_inv sz op s s2 hinv hstep) h

theorem runWF_inv (sz : Nat) (ops : List PoolOp) (st : PoolState)
    (out : List Nat) (h : runWF sz ops = some (st, out)) : Inv st out := by
  have h0 : Inv initialState ([] : List Nat) := by
    refine ⟨rfl, rfl, by simp, by simp [initialState], ?_⟩
    simp [initialState]
  exact runFrom_inv sz ops (initialState, []) (st, out) h0 h

/-! ### Claim C9: copy construction -/

/-- Claim C9: copy-constructing a pool from any source pool, whatever
its state, yields an independent empty pool: `total_slots == 0`,
`used_slots == 0`, no free-list entries, no blocks and no large
allocations, so no memory is shared or duplicated between the two
pools. -/
theorem c9_copy_ctor_empty (other : PoolState) :
    (copyCtor other).total_slots = 0 ∧ (copyCtor other).used_slots = 0 ∧
    (copyCtor other).free_list = [] ∧ (copyCtor other).blocks = [] ∧
    (copyCtor other).large_allocs = [] :=
  ⟨rfl, rfl, rfl, rfl, rfl⟩

/-! ### Claim C2: move construction -/

/-- The pool state after `allocate(2)` on a fresh pool for a 4-byte
element type: one outstanding large allocation at address 1. -/
def c2Source : PoolState :=
  { free_list := [], blocks := [], large_allocs := [1]
    total_slots := 0, used_slots := 0, next_addr := 9 }

/-- Claim C2 counterexample: the move constructor does not transfer
the large-allocation registry.  From a reachable pool with one
outstanding large allocation, the moved-from pool still owns it
(`large_allocs = [1] ≠ []`, not the claimed empty state) and the new
pool's registry is empty. -/
theorem c2_move_keeps_large_allocs :
    allocate 4 2 true initialState = Except.ok (c2Source, 1) ∧
    (moveCtor c2Source).2.large_allocs = [1] ∧
    (moveCtor c2Source).2.large_allocs ≠ [] ∧
    (moveCtor c2Source).1.large_allocs = [] := by
  refine ⟨rfl, rfl, ?_, rfl⟩
  decide

/-- Claim C2 (amended): the move constructor transfers all owned
blocks, all free-list slots and the counters to the new pool, and
leaves the moved-from pool with `total_slots == 0`,
`used_slots == 0`, an empty free-list and no blocks; the
large-allocation registry is not transferred — the new pool starts
with an empty registry and the moved-from pool retains its large
allocations. -/
theorem c2_move_amended (other : PoolState) :
    (moveCtor other).1.blocks = other.blocks ∧
    (moveCtor other).1.free_list = other.free_list ∧
    (moveCtor other).1.total_slots = other.total_slots ∧
    (moveCtor other).1.used_slots = other.used_slots ∧
    (moveCtor other).1.large_allocs = [] ∧
    (moveCtor other).2.total_slots = 0 ∧
    (moveCtor other).2.used_slots = 0 ∧
    (moveCtor other).2.free_list = [] ∧
    (moveCtor other).2.blocks = [] ∧
    (moveCtor other).2.large_allocs = other.large_allocs :=
  ⟨rfl, rfl, rfl, rfl, rfl, rfl, rfl, rfl, rfl, rfl⟩

/-! ### Claim C7: out-of-memory during allocate -/

/-- Claim C7: when the system allocator fails during `allocate` —
either growing a block on the single-slot path (which attempts a
malloc exactly when the free list is empty) or serving an `n > 1`
request — the failure propagates immediately and the pool state at the
throw is exactly the input state: no partially-registered block, no
stale large-allocation entry. -/
theorem c7_alloc_failure_state_unchanged (sz n : Nat) (st : PoolState)
    (h : (n = 1 ∧ st.free_list = []) ∨ 2 ≤ n) :
    allocate sz n false st = Except.error st := by
  rcases h with ⟨rfl, hfl⟩ | hn
  · simp [allocate, hfl, ensure_free_slot, expand]
  · rw [allocate, if_neg (by omega), if_neg (by omega)]
    simp

/-- Witness for C7 at a concrete input: a fresh pool has an empty free
list, and a failed single-slot allocation leaves it untouched. -/
theorem c7_alloc_failure_state_unchanged_witness :
    (1 = 1 ∧ initialState.free_list = []) ∧
    allocate 8 1 false initialState = Except.error initialState :=
  ⟨⟨rfl, rfl⟩,
   c7_alloc_failure_state_unchanged 8 1 initialState (Or.inl ⟨rfl, rfl⟩)⟩

/-! ### Claim C8: deallocate on the large-allocation path -/

/-- Claim C8: for every non-null pointer `p` and every `n > 1`,
`deallocate(p, n)` searches the large-allocation registry by address;
when `p` is found the region is freed and removed from the registry,
and when `p` is not found (foreign pointer or double free) the call is
a silent no-op leaving the pool unchanged. -/
theorem c8_deallocate_large_lookup (p n : Nat) (st : PoolState)
    (hp : 0 < p) (hn : 2 ≤ n) :
    (p ∈ st.large_allocs →
      deallocate p n st =
        { st with large_allocs := st.large_allocs.erase p }) ∧
    (p ∉ st.large_allocs → deallocate p n st = st) := by
  constructor
  · intro hmem
    rw [deallocate, if_neg (by omega), if_neg (by omega), if_pos hmem]
  · intro hmem
    rw [deallocate, if_neg (by omega), if_neg (by omega), if_neg hmem]

/-- A pool owning one large allocation at address 5, for the C8
witness. -/
def c8State : PoolState :=
  { initialState with large_allocs := [5] }

/-- Witness for C8 at a concrete input. -/
theorem c8_deallocate_large_lookup_witness :
    0 < 5 ∧ 2 ≤ 2 ∧
    ((5 ∈ c8State.large_allocs →
      deallocate 5 2 c8State =
        { c8State with large_allocs := c8State.large_allocs.erase 5 }) ∧
     (5 ∉ c8State.large_allocs → deallocate 5 2 c8State = c8State)) :=
  ⟨by decide, by decide, c8_deallocate_large_lookup 5 2 c8State
    (by decide) (by decide)⟩

/-! ### Claim C6: release_all -/

/-- Claim C6: after `release_all` every owned block and every
outstanding large allocation has been freed (both registries empty),
the free list is cleared and both counters are zero; `release_all` is
idempotent; and a subsequent `allocate(1)` behaves exactly like one on
a freshly constructed pool — it triggers one fresh
`default_block_size`-slot block, with the same resulting counters as
the fresh-pool case. -/
theorem c6_release_all_resets (sz : Nat) (st : PoolState) :
    (release_all st).total_slots = 0 ∧ (release_all st).used_slots = 0 ∧
    (release_all st).free_list = [] ∧ (release_all st).blocks = [] ∧
    (release_all st).large_allocs = [] ∧
    release_all (release_all st) = release_all st ∧
    ∃ st2 p st3 p3,
      allocate sz 1 true (release_all st) = Except.ok (st2, p) ∧
      allocate sz 1 true initialState = Except.ok (st3, p3) ∧
      st2.blocks.length = 1 ∧ st2.total_slots = default_block_size ∧
      st2.used_slots = 1 ∧ st2.free_list.length = default_block_size - 1 ∧
      st2.large_allocs = [] ∧
      st3.blocks.length = st2.blocks.length ∧
      st3.total_slots = st2.total_slots ∧
      st3.used_slots = st2.used_slots ∧
      st3.free_list.length = st2.free_list.length := by
  refine ⟨rfl, rfl, rfl, rfl, rfl, rfl, ?_⟩
  refine ⟨_, _, _, _, allocate_one_empty sz (release_all st) rfl,
    allocate_one_empty sz initialState rfl, ?_, ?_, ?_, ?_, ?_, ?_, ?_, ?_, ?_⟩
  all_goals simp [release_all, initialState, default_block_size]

/-! ### Claim C3: LIFO reuse of single slots -/

/-- Every pointer the pool can hand out is non-null: all free-list
entries and the heap counter are positive.  This holds for every
reachable pool state (it is part of `Inv`). -/
def ptrPos (st : PoolState) : Prop :=
  (∀ p ∈ st.free_list, 0 < p) ∧ 0 < st.next_addr

instance (st : PoolState) : Decidable (ptrPos st) := by
  unfold ptrPos; infer_instance

/-- Claim C3: if `allocate(1)` returns pointer `p` and
`deallocate(p, 1)` is then called, the next `allocate(1)` returns the
same address `p`: the free list reuses single slots in LIFO order. -/
theorem c3_freelist_lifo_reuse (sz : Nat) (st st1 : PoolState) (p : Nat)
    (hpos : ptrPos st) (h : allocate sz 1 true st = Except.ok (st1, p)) :
    ∃ st2, allocate sz 1 true (deallocate p 1 st1) = Except.ok (st2, p) := by
  have key : ∀ A : PoolState, 0 < p →
      ∃ st2, allocate sz 1 true (deallocate p 1 A) = Except.ok (st2, p) := by
    intro A hp
    have hd : deallocate p 1 A =
        { A with free_list := p :: A.free_list
                 used_slots := A.used_slots - 1 } := by
      rw [deallocate, if_neg (by omega)]
      simp
    rw [hd]
    exact ⟨_, allocate_one_cons sz true _ p A.free_list rfl⟩
  cases hfl : st.free_list with
  | cons s rest =>
    rw [allocate_one_cons sz true st s rest hfl] at h
    simp only [Except.ok.injEq, Prod.mk.injEq] at h
    obtain ⟨h1, h2⟩ := h
    subst h2
    exact key st1 (hpos.1 _ (hfl ▸ List.mem_cons_self _ _))
  | nil =>
    rw [allocate_one_empty sz st hfl] at h
    simp only [Except.ok.injEq, Prod.mk.injEq] at h
    obtain ⟨h1, h2⟩ := h
    subst h2
    have := hpos.2
    exact key st1 (by omega)

/-- The pool state after one `allocate(1)` on a fresh pool with
`sizeof(T) = 1`: one 16-slot block at address 1, slot 16 handed out. -/
def allocOneState : PoolState :=
  { free_list := [15, 14, 13, 12, 11, 10, 9, 8, 7, 6, 5, 4, 3, 2, 1]
    blocks := [1], large_allocs := [], total_slots := 16, used_slots := 1
    next_addr := 17 }

/-- Witness for C3 at a concrete input: on a fresh pool the first
`allocate(1)` returns slot 16; free and reallocate returns 16 again. -/
theorem c3_freelist_lifo_reuse_witness :
    ptrPos initialState ∧
    allocate 1 1 true initialState = Except.ok (allocOneState, 16) ∧
    ∃ st2, allocate 1 1 true (deallocate 16 1 allocOneState) =
      Except.ok (st2, 16) :=
  ⟨by decide, rfl,
   c3_freelist_lifo_reuse 1 initialState allocOneState 16 (by decide) rfl⟩

/-! ### Claim C1: the concrete capacity-10 scenario -/

/-- The pool produced by constructing with initial capacity 10 for an
8-byte element type: `reserve(10)` rounds the request up to one
16-slot block at address 1. -/
def c1Pool : PoolState :=
  { free_list := [121, 113, 105, 97, 89, 81, 73, 65, 57, 49, 41,
                  33, 25, 17, 9, 1]
    blocks := [1], large_allocs := [], total_slots := 16, used_slots := 0
    next_addr := 129 }

/-- The pool after the 11 single-slot allocations of the C1
scenario. -/
def c1After : PoolState :=
  { free_list := [33, 25, 17, 9, 1], blocks := [1], large_allocs := []
    total_slots := 16, used_slots := 11, next_addr := 129 }

/-- The 11 pointers returned by the C1 scenario's allocations. -/
def c1Ptrs : List Nat :=
  [121, 113, 105, 97, 89, 81, 73, 65, 57, 49, 41]

/-- Claim C1 counterexample: in the capacity-10 scenario the reserve
creates a 16-slot block, so the 11th `allocate(1)` is served from that
same block — no second block is ever allocated (`blocks` still has one
entry) — and after freeing all 11 slots `total_slots` is 16, not at
least 26. -/
theorem c1_eleventh_alloc_no_new_block :
    mkPool 8 10 true = Except.ok c1Pool ∧
    allocN 8 true 11 c1Pool = Except.ok (c1After, c1Ptrs) ∧
    c1After.blocks = c1Pool.blocks ∧
    ¬ 26 ≤ (c1Ptrs.foldl (fun s p => deallocate p 1 s) c1After).total_slots := by
  refine ⟨rfl, rfl, rfl, ?_⟩
  decide

/-- Claim C1 (amended): constructing with initial capacity 10 for an
8-byte element type reserves one 16-slot block; all 11 single-slot
allocations (the first 10 and the 11th alike) succeed from that
initial block without triggering any new block; after deallocating all
11 slots, `used_slots = 0` and `total_slots = 16`. -/
theorem c1_scenario_amended :
    mkPool 8 10 true = Except.ok c1Pool ∧
    c1Pool.total_slots = 16 ∧ c1Pool.blocks.length = 1 ∧
    allocN 8 true 11 c1Pool = Except.ok (c1After, c1Ptrs) ∧
    c1Ptrs.length = 11 ∧
    c1After.blocks = c1Pool.blocks ∧
    (c1Ptrs.foldl (fun s p => deallocate p 1 s) c1After).used_slots = 0 ∧
    (c1Ptrs.foldl (fun s p => deallocate p 1 s) c1After).total_slots = 16 := by
  refine ⟨rfl, rfl, rfl, rfl, rfl, rfl, ?_, ?_⟩ <;> decide

/-! ### Claim C5: reserve -/

/-- A reachable pool (16 single-slot allocations from fresh,
`sizeof(T) = 1`) whose free list is exhausted while
`total_slots = 16`. -/
def c5Depleted : PoolState :=
  { free_list := [], blocks := [1], large_allocs := []
    total_slots := 16, used_slots := 16, next_addr := 17 }

/-- The 16 pointers handed out on the way to `c5Depleted`. -/
def c5Ptrs : List Nat :=
  [16, 15, 14, 13, 12, 11, 10, 9, 8, 7, 6, 5, 4, 3, 2, 1]

/-- The pool after 5 further single-slot allocations from
`c5Depleted`: a second block (base 17) has appeared. -/
def c5Expanded : PoolState :=
  { free_list := [27, 26, 25, 24, 23, 22, 21, 20, 19, 18, 17]
    blocks := [1, 17], large_allocs := [], total_slots := 32
    used_slots := 21, next_addr := 33 }

/-- Claim C5 counterexample: from the reachable state `c5Depleted`
(all 16 slots outstanding), `reserve(5)` is a no-op because
`5 <= total_slots`, yet the following 5 `allocate(1)` calls do trigger
a new block: the claim's "for every k, reserve(k) followed by k
allocate(1) calls never triggers a new block allocation" fails. -/
theorem c5_reserve_then_alloc_new_block :
    allocN 1 true 16 initialState = Except.ok (c5Depleted, c5Ptrs) ∧
    reserve 1 5 true c5Depleted = Except.ok c5Depleted ∧
    allocN 1 true 5 c5Depleted =
      Except.ok (c5Expanded, [32, 31, 30, 29, 28]) ∧
    c5Expanded.blocks.length = 2 ∧ c5Depleted.blocks.length = 1 :=
  ⟨rfl, rfl, rfl, rfl, rfl⟩

/-- Claim C5 (amended): `reserve(k)` is a no-op when
`k <= total_slots` and otherwise grows by exactly `k - total_slots`
slots rounded up to at least one `default_block_size` block, pushing
all new slots onto the free-list head; and — provided the free list
covers all slots, i.e. no single-slot allocation is outstanding
(`total_slots <= free_list.length`) — `reserve(k)` followed by `k`
consecutive `allocate(1)` calls never allocates a new block. -/
theorem c5_reserve_amended (sz k : Nat) (st : PoolState) :
    (k ≤ st.total_slots → reserve sz k true st = Except.ok st) ∧
    (st.total_slots < k → reserve sz k true st = Except.ok { st with
        blocks := st.blocks ++ [st.next_addr]
        free_list := ((List.range (max (k - st.total_slots)
            default_block_size)).map
          (fun i => st.next_addr + i * sz)).reverse ++ st.free_list
        total_slots := st.total_slots + max (k - st.total_slots)
            default_block_size
        next_addr := st.next_addr + max (k - st.total_slots)
            default_block_size * sz }) ∧
    (st.total_slots ≤ st.free_list.length → ∀ st1,
      reserve sz k true st = Except.ok st1 →
      ∃ st2 ps, allocN sz true k st1 = Except.ok (st2, ps) ∧
        st2.blocks = st1.blocks) := by
  refine ⟨?_, ?_, ?_⟩
  · intro hk; rw [reserve, if_pos hk]
  · intro hk; rw [reserve, if_neg (by omega), expand_ok]
  · intro hfull st1 hres
    rw [reserve] at hres
    by_cases hk : k ≤ st.total_slots
    · rw [if_pos hk] at hres
      obtain rfl : st = st1 := by simpa using hres
      exact ⟨_, _, allocN_of_le sz k st (by omega), rfl⟩
    · rw [if_neg hk, expand_ok] at hres
      injection hres with h'
      subst h'
      refine ⟨_, _, allocN_of_le sz k _ ?_, rfl⟩
      simp only [List.length_append, List.length_reverse, List.length_map,
        List.length_range]
      omega

/-- The pool after `reserve(20)` on a fresh pool with
`sizeof(T) = 1`: one 20-slot block. -/
def c5ReservedState : PoolState :=
  { free_list := [20, 19, 18, 17, 16, 15, 14, 13, 12, 11, 10,
                  9, 8, 7, 6, 5, 4, 3, 2, 1]
    blocks := [1], large_allocs := [], total_slots := 20, used_slots := 0
    next_addr := 21 }

/-- Witness for C5 (amended) at a concrete input: a fresh pool,
`reserve(20)`, then 20 allocations with no new block. -/
theorem c5_reserve_amended_witness :
    initialState.total_slots ≤ initialState.free_list.length ∧
    reserve 1 20 true initialState = Except.ok c5ReservedState ∧
    ∃ st2 ps, allocN 1 true 20 c5ReservedState = Except.ok (st2, ps) ∧
      st2.blocks = c5ReservedState.blocks :=
  ⟨by decide, rfl,
   (c5_reserve_amended 1 20 initialState).2.2 (by decide) c5ReservedState rfl⟩

/-! ### Claims C4 and C10: counter and free-list invariants -/

theorem allocate_total_mono (sz n : Nat) (st st1 : PoolState) (p : Nat)
    (h : allocate sz n true st = Except.ok (st1, p)) :
    st.total_slots ≤ st1.total_slots := by
  by_cases h0 : n = 0
  · subst h0
    rw [allocate, if_pos rfl] at h
    obtain ⟨rfl, rfl⟩ : st = st1 ∧ (0 : Nat) = p := by simpa using h
    exact le_refl _
  by_cases h1 : n = 1
  · subst h1
    cases hfl : st.free_list with
    | cons a rest =>
      rw [allocate_one_cons sz true st a rest hfl] at h
      obtain ⟨h2, -⟩ : _ ∧ a = p := by simpa using h
      rw [← h2]
    | nil =>
      rw [allocate_one_empty sz st hfl] at h
      obtain ⟨h2, -⟩ : _ ∧ st.next_addr + 15 * sz = p := by simpa using h
      rw [← h2]
      simp
  · rw [allocate, if_neg h0, if_neg h1] at h
    simp only [if_pos rfl] at h
    obtain ⟨h2, -⟩ : _ ∧ st.next_addr = p := by simpa using h
    rw [← h2]

theorem deallocate_total_eq (p n : Nat) (st : PoolState) :
    (deallocate p n st).total_slots = st.total_slots := by
  by_cases hp : p = 0
  · rw [deallocate, if_pos hp]
  · rw [deallocate, if_neg hp]
    by_cases hn : n = 1
    · rw [if_pos hn]
    · rw [if_neg hn]
      by_cases hm : p ∈ st.large_allocs
      · rw [if_pos hm]
      · rw [if_neg hm]

theorem reserve_total_mono (sz k : Nat) (st st1 : PoolState)
    (h : reserve sz k true st = Except.ok st1) :
    st.total_slots ≤ st1.total_slots := by
  rw [reserve] at h
  by_cases hk : k ≤ st.total_slots
  · rw [if_pos hk] at h
    obtain rfl : st = st1 := by simpa using h
    exact le_refl _
  · rw [if_neg hk, expand_ok] at h
    injection h with h'
    subst h'
    simp

/-- Every well-formed step other than `release_all` can only grow
`total_slots`. -/
theorem stepWF_total_mono (sz : Nat) (op : PoolOp)
    (s s1 : PoolState × List Nat) (hop : op ≠ PoolOp.releaseAllOp)
    (h : stepWF sz op s = some s1) :
    s.1.total_slots ≤ s1.1.total_slots := by
  cases op with
  | alloc n =>
    rw [stepWF] at h
    cases halloc : allocate sz n true s.1 with
    | error e => rw [halloc] at h; cases h
    | ok pr =>
      rw [halloc] at h
      obtain rfl : s1 = (pr.1, if n = 1 then pr.2 :: s.2 else s.2) := by
        cases pr
        simpa using h.symm
      exact allocate_total_mono sz n s.1 pr.1 pr.2 (by rw [halloc])
  | dealloc p n =>
    rw [stepWF] at h
    by_cases hn : n = 1
    · subst hn
      rw [if_pos rfl] at h
      by_cases hp : p ∈ s.2
      · rw [if_pos hp] at h
        obtain rfl : s1 = (deallocate p 1 s.1, s.2.erase p) := by
          simpa using h.symm
        exact le_of_eq (deallocate_total_eq p 1 s.1).symm
      · rw [if_neg hp] at h; cases h
    · rw [if_neg hn] at h
      obtain rfl : s1 = (deallocate p n s.1, s.2) := by simpa using h.symm
      exact le_of_eq (deallocate_total_eq p n s.1).symm
  | reserveCap k =>
    rw [stepWF] at h
    cases hres : reserve sz k true s.1 with
    | error e => rw [hres] at h; cases h
    | ok st2 =>
      rw [hres] at h
      obtain rfl : s1 = (st2, s.2) := by simpa using h.symm
      exact reserve_total_mono sz k s.1 st2 hres
  | releaseAllOp => exact absurd rfl hop

/-- Claim C4: along every well-formed sequence of public calls from a
freshly constructed pool, `used_slots` never exceeds `total_slots`
(and, being a natural number, never goes negative); and every further
step other than a full release can only grow `total_slots`. -/
theorem c4_used_le_total_and_total_monotone (sz : Nat)
    (ops : List PoolOp) (st : PoolState) (out : List Nat)
    (h : runWF sz ops = some (st, out)) :
    st.used_slots ≤ st.total_slots ∧
    ∀ op st2 out2, op ≠ PoolOp.releaseAllOp →
      stepWF sz op (st, out) = some (st2, out2) →
      st.total_slots ≤ st2.total_slots := by
  obtain ⟨hlen, -, -, -, -⟩ := runWF_inv sz ops st out h
  refine ⟨by omega, ?_⟩
  intro op st2 out2 hop hstep
  exact stepWF_total_mono sz op (st, out) (st2, out2) hop hstep

/-- Witness for C4 at a concrete input: the one-allocation trace. -/
theorem c4_used_le_total_and_total_monotone_witness :
    runWF 1 [PoolOp.alloc 1] = some (allocOneState, [16]) ∧
    (allocOneState.used_slots ≤ allocOneState.total_slots ∧
     ∀ op st2 out2, op ≠ PoolOp.releaseAllOp →
       stepWF 1 op (allocOneState, [16]) = some (st2, out2) →
       allocOneState.total_slots ≤ st2.total_slots) :=
  ⟨rfl, c4_used_le_total_and_total_monotone 1 [PoolOp.alloc 1]
    allocOneState [16] rfl⟩

/-- Claim C10: in every pool state reachable by well-formed use of the
public operations from a fresh pool, the number of slots on the free
list equals `total_slots - used_slots`; move construction preserves
the equality in both the destination and the moved-from pool.  (That
every public operation preserves the equality is exactly the
quantification over all well-formed call sequences `ops`.) -/
theorem c10_freelist_length_invariant (sz : Nat) (ops : List PoolOp)
    (st : PoolState) (out : List Nat)
    (h : runWF sz ops = some (st, out)) :
    st.free_list.length = st.total_slots - st.used_slots ∧
    (moveCtor st).1.free_list.length =
      (moveCtor st).1.total_slots - (moveCtor st).1.used_slots ∧
    (moveCtor st).2.free_list.length =
      (moveCtor st).2.total_slots - (moveCtor st).2.used_slots := by
  obtain ⟨hlen, -, -, -, -⟩ := runWF_inv sz ops st out h
  refine ⟨by omega, ?_, ?_⟩
  · simp [moveCtor]
    omega
  · simp [moveCtor]

/-- Witness for C10 at a concrete input: the one-allocation trace. -/
theorem c10_freelist_length_invariant_witness :
    runWF 1 [PoolOp.alloc 1] = some (allocOneState, [16]) ∧
    (allocOneState.free_list.length =
       allocOneState.total_slots - allocOneState.used_slots ∧
     (moveCtor allocOneState).1.free_list.length =
       (moveCtor allocOneState).1.total_slots -
         (moveCtor allocOneState).1.used_slots ∧
     (moveCtor allocOneState).2.free_list.length =
       (moveCtor allocOneState).2.total_slots -
         (moveCtor allocOneState).2.used_slots) :=
  ⟨rfl, c10_freelist_length_invariant 1 [PoolOp.alloc 1]
    allocOneState [16] rfl⟩

end PoolModel
